import Mathlib

/-!
Verification development for the factagent repository.

This file gives a shallow embedding, in Lean 4, of the parts of the
repository that the specification's testable claims are about:

* `src/agent/nodes.py` — the structured-output coercion helpers
  (`_extract_json`, `_repair_json`, `_fix_unescaped_quotes`,
  `_fix_newlines_in_strings`, `call_claude_structured`), the four workflow
  nodes (`decompose_claim`, `retrieve_evidence`, `evaluate_evidence`,
  `synthesize_verdict`) and the human-feedback merge inside
  `synthesize_verdict`;
* `src/agent/tools.py` — `search_evidence` (merge, URL dedup, truncation,
  score sort);
* `src/agent/graph.py` — the routing functions and the four-stage workflow
  state machine;
* `src/agent/models.py` — the pydantic data model.

Modelling conventions:
* Python strings are Lean `String`s, processed on their `List Char` data so
  that every scanner is a structural recursion that the kernel can evaluate.
* Python floats that only ever hold the literal values `0.0`, `0.1`, scores
  in `[0,1]` etc. are modelled as rationals (`ℚ`).
* Calls to the external reasoning engine and evidence provider are modelled
  as explicit oracle parameters; theorems quantify over all oracles.
* Python truthiness is modelled explicitly where the code relies on it
  (`state.get("error")`, `if fb.user_comment:`; an empty string / list /
  `None` is falsy).
* `json.loads` is modelled by a validity scanner `jsonOk` implementing the
  grammar accepted by Python's `json` module in its default strict mode
  (double-quoted strings with the standard escapes, no raw control
  characters in strings, JSON numbers plus the NaN/Infinity constants,
  `[ \t\n\r]` inter-token whitespace, any top-level value, no trailing
  data).  The claims only evaluate it on concrete inputs.
* Python's `str`/regex whitespace classes are modelled by their ASCII
  members; the inputs in the claims are ASCII.
-/

/-! ### Characters that are awkward to write literally -/

/-- The double-quote character `"`. -/
def dq : Char := Char.ofNat 34

/-- The single-quote character. -/
def sqc : Char := Char.ofNat 39

/-- The backslash character. -/
def bsl : Char := Char.ofNat 92

/-- The backtick character. -/
def btick : Char := Char.ofNat 96

/-- ASCII members of Python's `str.strip` / `str.lstrip` whitespace set and of
the regex class matched by a whitespace metacharacter:
space, tab, newline, carriage return, vertical tab, form feed. -/
def isPyWs (c : Char) : Bool :=
  c = ' ' || c = '\t' || c = '\n' || c = '\r' || c = Char.ofNat 11 || c = Char.ofNat 12

/-- Whitespace accepted between tokens by Python's `json` module
(`[ \t\n\r]`). -/
def isJsonWs (c : Char) : Bool :=
  c = ' ' || c = '\t' || c = '\n' || c = '\r'

def skipWs (cs : List Char) : List Char := cs.dropWhile isJsonWs

def isHexDigit (c : Char) : Bool :=
  (('0' ≤ c && c ≤ '9') || ('a' ≤ c && c ≤ 'f') || ('A' ≤ c && c ≤ 'F'))

def isDigit (c : Char) : Bool := '0' ≤ c && c ≤ '9'

/-! ### A validity scanner for Python `json.loads`

`skipString` consumes a JSON string body (the opening quote already
consumed) exactly as `json.decoder.py_scanstring` does in strict mode:
plain characters must not be control characters (< 0x20); a backslash
introduces one of the escapes `" \ / b f n r t` or `u` + 4 hex digits. -/

def skipString : List Char → Option (List Char)
  | [] => none
  | c :: rest =>
    if c = dq then some rest
    else if c = bsl then
      match rest with
      | [] => none
      | e :: rest2 =>
        if e = 'u' then
          match rest2 with
          | h1 :: h2 :: h3 :: h4 :: rest3 =>
            if isHexDigit h1 && isHexDigit h2 && isHexDigit h3 && isHexDigit h4 then
              skipString rest3
            else none
          | _ => none
        else if e = dq || e = bsl || e = '/' || e = 'b' || e = 'f' ||
                e = 'n' || e = 'r' || e = 't' then
          skipString rest2
        else none
    else if c.toNat < 32 then none
    else skipString rest

/-- Consume a JSON number matching Python's
`(-?(?:0|[1-9]\d*))(\.\d+)?([eE][-+]?\d+)?` (the leading `-`, if any,
already validated by the caller is NOT assumed: this handles it). -/
def skipNumber (cs : List Char) : Option (List Char) :=
  let afterSign := match cs with
    | c :: rest => if c = '-' then some rest else some cs
    | [] => none
  match afterSign with
  | none => none
  | some cs1 =>
    let afterInt : Option (List Char) :=
      match cs1 with
      | c :: rest =>
        if c = '0' then some rest
        else if isDigit c then some (rest.dropWhile isDigit)
        else none
      | [] => none
    match afterInt with
    | none => none
    | some cs2 =>
      let afterFrac : Option (List Char) :=
        match cs2 with
        | c :: rest =>
          if c = '.' then
            match rest with
            | d :: rest2 => if isDigit d then some (rest2.dropWhile isDigit) else none
            | [] => none
          else some cs2
        | [] => some cs2
      match afterFrac with
      | none => none
      | some cs3 =>
        match cs3 with
        | c :: rest =>
          if c = 'e' || c = 'E' then
            let rest2 := match rest with
              | s :: r => if s = '+' || s = '-' then r else rest
              | [] => rest
            match rest2 with
            | d :: r => if isDigit d then some (r.dropWhile isDigit) else none
            | [] => none
          else some cs3
        | [] => some cs3

/-- Consume an expected literal word. -/
def skipLit : List Char → List Char → Option (List Char)
  | [], cs => some cs
  | _ :: _, [] => none
  | l :: ls, c :: cs => if c = l then skipLit ls cs else none

/-- Parser modes for the fuel-indexed JSON scanner: a value, the inside of an
array just after `[`, the `, value` / `]` tail of an array, the inside of an
object just after `{`, a `"key" : value` member, and the `, member` / `}`
tail of an object. -/
inductive JMode
  | value
  | arrFirst
  | arrTail
  | objFirst
  | member
  | objTail

/-- Fuel-indexed scanner for the value grammar accepted by `json.loads`.
Returns the unconsumed remainder on success. -/
def skipJ : Nat → JMode → List Char → Option (List Char)
  | 0, _, _ => none
  | _ + 1, JMode.value, [] => none
  | f + 1, JMode.value, c :: rest =>
    if c = dq then skipString rest
    else if c = '{' then skipJ f JMode.objFirst (skipWs rest)
    else if c = '[' then skipJ f JMode.arrFirst (skipWs rest)
    else if c = 'n' then skipLit ['u', 'l', 'l'] rest
    else if c = 't' then skipLit ['r', 'u', 'e'] rest
    else if c = 'f' then skipLit ['a', 'l', 's', 'e'] rest
    else if c = 'N' then skipLit ['a', 'N'] rest
    else if c = 'I' then skipLit ['n', 'f', 'i', 'n', 'i', 't', 'y'] rest
    else if c = '-' then
      match skipLit ['I', 'n', 'f', 'i', 'n', 'i', 't', 'y'] rest with
      | some r => some r
      | none => skipNumber (c :: rest)
    else if isDigit c then skipNumber (c :: rest)
    else none
  | _ + 1, JMode.arrFirst, [] => none
  | f + 1, JMode.arrFirst, c :: rest =>
    if c = ']' then some rest
    else
      match skipJ f JMode.value (c :: rest) with
      | some r => skipJ f JMode.arrTail (skipWs r)
      | none => none
  | _ + 1, JMode.arrTail, [] => none
  | f + 1, JMode.arrTail, c :: rest =>
    if c = ']' then some rest
    else if c = ',' then
      match skipJ f JMode.value (skipWs rest) with
      | some r => skipJ f JMode.arrTail (skipWs r)
      | none => none
    else none
  | _ + 1, JMode.objFirst, [] => none
  | f + 1, JMode.objFirst, c :: rest =>
    if c = '}' then some rest
    else skipJ f JMode.member (c :: rest)
  | _ + 1, JMode.member, [] => none
  | f + 1, JMode.member, c :: rest =>
    if c = dq then
      match skipString rest with
      | some r =>
        match skipWs r with
        | ':' :: r2 =>
          match skipJ f JMode.value (skipWs r2) with
          | some r3 => skipJ f JMode.objTail (skipWs r3)
          | none => none
        | _ => none
      | none => none
    else none
  | _ + 1, JMode.objTail, [] => none
  | f + 1, JMode.objTail, c :: rest =>
    if c = '}' then some rest
    else if c = ',' then skipJ f JMode.member (skipWs rest)
    else none

/-- Model of the success or failure of `json.loads(s)`: after optional
leading whitespace a single JSON value must consume the input up to optional
trailing whitespace. -/
def jsonOk (s : String) : Bool :=
  match skipJ (2 * s.data.length + 8) JMode.value (skipWs s.data) with
  | some r => (skipWs r).isEmpty
  | none => false

example : jsonOk "\x7b\"a\": 1\x7d" = true := by decide
example : jsonOk "\x7b\"a\": 1,\x7d" = false := by decide
example : jsonOk "[1, 2.5e-3, null, true, \"a\\\"b\"]" = true := by decide
example : jsonOk "\"unterminated" = false := by decide
example : jsonOk "  42  " = true := by decide
example : jsonOk "42 x" = false := by decide

/-! ### `_repair_json` and its helpers (src/agent/nodes.py)

Step 2/7 of `_repair_json` is `re.sub(r',\s*([}\]])', r'\1', raw)`: every
comma followed by optional whitespace and a closing brace/bracket is
replaced by that closer.  `stripTC` is a left-to-right automaton equivalent
to the regex scan: `none` means "scanning", `some ws` means "a comma and the
whitespace `ws` after it are pending as a candidate match".  A match can
only start at a comma and whitespace never starts one, so flushing a failed
candidate never skips a possible match. -/

def stripTC : Option (List Char) → List Char → List Char
  | none, [] => []
  | some ws, [] => ',' :: ws
  | none, c :: rest =>
    if c = ',' then stripTC (some []) rest
    else c :: stripTC none rest
  | some ws, c :: rest =>
    if c = '}' || c = ']' then c :: stripTC none rest
    else if c = ',' then (',' :: ws) ++ stripTC (some []) rest
    else if isPyWs c then stripTC (some (ws ++ [c])) rest
    else (',' :: ws) ++ (c :: stripTC none rest)

/-- Steps 2 and 7 of `_repair_json`: strip trailing commas before a closing
brace or bracket. -/
def strip_trailing_commas (s : String) : String :=
  String.mk (stripTC none s.data)

/-- `_fix_unescaped_quotes` (src/agent/nodes.py lines 133–182): walk the text
with an `in_string` flag; inside a string a backslash escapes the next
character; a double quote inside a string closes it only when the next
non-whitespace character is one of `, } ] :` (or the text ends), and is
escaped in place otherwise. -/
def fixQ : Bool → List Char → List Char
  | _, [] => []
  | in_string, c :: rest =>
    if c = bsl && in_string then
      match rest with
      | c2 :: rest2 => c :: c2 :: fixQ true rest2
      | [] => [c]
    else if c = dq then
      if !in_string then c :: fixQ true rest
      else
        match rest.dropWhile isPyWs with
        | [] => c :: fixQ false rest
        | r :: _ =>
          if r = ',' || r = '}' || r = ']' || r = ':' then c :: fixQ false rest
          else bsl :: dq :: fixQ true rest
    else c :: fixQ in_string rest

def fix_unescaped_quotes (s : String) : String :=
  String.mk (fixQ false s.data)

/-- `_fix_newlines_in_strings` (src/agent/nodes.py lines 185–217): inside a
string a backslash (not at end of text) escapes the next character; every
double quote toggles the flag; a raw newline inside a string becomes the
two characters `\` `n`. -/
def fixNl : Bool → List Char → List Char
  | _, [] => []
  | in_string, c :: rest =>
    if c = bsl && in_string then
      match rest with
      | c2 :: rest2 => c :: c2 :: fixNl true rest2
      | [] => [c]
    else if c = dq then c :: fixNl (!in_string) rest
    else if c = '\n' && in_string then bsl :: 'n' :: fixNl true rest
    else c :: fixNl in_string rest

def fix_newlines_in_strings (s : String) : String :=
  String.mk (fixNl false s.data)

/-- Step 6 of `_repair_json`: scan with an `in_str` flag (a backslash inside
a string is skipped; a quote toggles unless the previous character was a
backslash — mirroring the source's `j == 0 or raw[j-1] != '\\'` test, which
consults the raw previous character), pushing the matching closer for each
`{`/`[` outside strings and popping on any `}`/`]` outside strings.  The
accumulator keeps the top of the stack at the head, which is exactly the
reversed (innermost-first) order the source appends. -/
def bracketStack : Option Char → Bool → List Char → List Char → List Char
  | _, _, stack, [] => stack
  | prev, in_str, stack, c :: rest =>
    if c = bsl && in_str then bracketStack (some c) in_str stack rest
    else
      let toggles := c = dq && (prev.isNone || prev ≠ some bsl)
      let in2 := if toggles then !in_str else in_str
      if in2 then bracketStack (some c) in2 stack rest
      else if c = '{' then bracketStack (some c) in2 ('}' :: stack) rest
      else if c = '[' then bracketStack (some c) in2 (']' :: stack) rest
      else if (c = '}' || c = ']') && !stack.isEmpty then
        bracketStack (some c) in2 stack.tail rest
      else bracketStack (some c) in2 stack rest

/-- Append the closers for all unclosed brackets, innermost first. -/
def balance_brackets (s : String) : String :=
  s ++ String.mk (bracketStack none false [] s.data)

/-- Step 1 of `_repair_json`: if single quotes outnumber double quotes,
replace every single quote by a double quote. -/
def quote_swap (s : String) : String :=
  if s.data.count sqc > s.data.count dq then
    String.mk (s.data.map fun c => if c = sqc then dq else c)
  else s

/-- Steps 3–7 of `_repair_json`: if the comma-stripped text parses, return
it; otherwise fix unescaped quotes, then raw newlines in strings, then
append missing closers, then strip trailing commas again. -/
def repair_tail (s : String) : String :=
  if jsonOk s then s
  else strip_trailing_commas (balance_brackets (fix_newlines_in_strings (fix_unescaped_quotes s)))

/-- `_repair_json` (src/agent/nodes.py lines 72–130). -/
def repair_json (raw : String) : String :=
  repair_tail (strip_trailing_commas (quote_swap raw))

/-! ### `_extract_json` (src/agent/nodes.py lines 53–69) -/

/-- Python `str.strip()` (ASCII whitespace). -/
def pyStrip (s : String) : String :=
  String.mk (((s.data.dropWhile isPyWs).reverse.dropWhile isPyWs).reverse)

/-- Python `str.split("\n")`. -/
def splitNl : List Char → List (List Char)
  | [] => [[]]
  | c :: rest =>
    match splitNl rest with
    | [] => [[c]]
    | l :: ls => if c = '\n' then [] :: l :: ls else (c :: l) :: ls

/-- `line.startswith("```")`. -/
def startsTicks (l : List Char) : Bool :=
  l.take 3 = [btick, btick, btick]

/-- The fence-stripping loop of `_extract_json`: skip until the first
fence line, collect lines until the next fence line (or the end). -/
def collectFence : Bool → List (List Char) → List (List Char)
  | _, [] => []
  | in_block, l :: rest =>
    if startsTicks l && !in_block then collectFence true rest
    else if startsTicks l && in_block then []
    else if in_block then l :: collectFence true rest
    else collectFence in_block rest

def joinNl : List (List Char) → List Char
  | [] => []
  | [l] => l
  | l :: ls => l ++ '\n' :: joinNl ls

/-- `_extract_json`: strip the text; if it starts with a fence, return the
lines between the first fence line and the next one, joined by newlines. -/
def extract_json (raw : String) : String :=
  let t := pyStrip raw
  if startsTicks t.data then String.mk (joinNl (collectFence false (splitNl t.data)))
  else t

example : strip_trailing_commas "\x7b\"a\": 1,\x7d" = "\x7b\"a\": 1\x7d" := by decide
example : repair_json "\x7b\"a\": \x7b\"b\": 1" = "\x7b\"a\": \x7b\"b\": 1\x7d\x7d" := by decide

/-! ### Data model (src/agent/models.py)

Pydantic field constraints (list lengths, numeric ranges) are not baked
into the types; they are enforced by the abstract validator oracle in the
coercion engine.  Member names follow the Python enum members. -/

inductive ClaimType
  | FACTUAL
  | OPINION
  | MIXED
  | PREDICTION
deriving DecidableEq

inductive Verdict
  | TRUE
  | FALSE
  | PARTIALLY_TRUE
  | MISLEADING
  | UNVERIFIABLE
deriving DecidableEq

inductive Credibility
  | HIGH
  | MEDIUM
  | LOW
deriving DecidableEq

structure SubClaim where
  claim : String
  search_queries : List String
deriving DecidableEq

structure ClaimDecomposition where
  original_claim : String
  claim_type : ClaimType
  language : String
  sub_claims : List SubClaim
deriving DecidableEq

structure Source where
  url : String
  title : String
  snippet : String
  relevance_score : ℚ
  credibility : Credibility
deriving DecidableEq

structure SubClaimVerdict where
  claim : String
  verdict : Verdict
  confidence : ℚ
  evidence : List Source
  reasoning : String
deriving DecidableEq

structure FactCheckResult where
  original_claim : String
  overall_verdict : Verdict
  confidence : ℚ
  sub_verdicts : List SubClaimVerdict
  summary : String
  key_sources : List Source
deriving DecidableEq

structure SubClaimFeedback where
  claim : String
  corrected_verdict : Option Verdict
  user_comment : Option String
deriving DecidableEq

structure HumanFeedback where
  reviewed : Bool
  sub_claim_feedback : List SubClaimFeedback
  general_comment : Option String
deriving DecidableEq

/-! ### The coercion engine `call_claude_structured` (src/agent/nodes.py 220–317)

The reasoning engine is an oracle `engine : Nat → String → String` giving
the accumulated streamed text of attempt `i` when sent user message `p`
(the system prompt is fixed throughout and elided).  Pydantic validation of
the parsed JSON is an oracle `validate : String → Except String α`
abstracting `response_model.model_validate(json.loads(text))` on texts that
parse (its argument is only ever a text accepted by `jsonOk`, of which the
parsed object is a deterministic function); the `Except.error` message is
the stringified `ValidationError`. -/

/-- A failure of one attempt, as observable from the raised Python
exception: a `json.JSONDecodeError` carries the document that failed to
parse (`.doc` — which at the raise site on line 304 is the repaired text),
a pydantic `ValidationError` carries field errors but no source text. -/
inductive CallError
  | parseError (doc : String)
  | validationError (msg : String)
deriving DecidableEq

/-- One attempt (lines 294–306): extract, parse, on parse failure repair and
re-parse, then validate. -/
def attemptOnce {α : Type} (validate : String → Except String α) (buffer : String) :
    Except CallError α :=
  let jt := extract_json buffer
  if jsonOk jt then (validate jt).mapError CallError.validationError
  else
    let rep := repair_json jt
    if jsonOk rep then (validate rep).mapError CallError.validationError
    else Except.error (CallError.parseError rep)

/-- The re-prompt used from the second attempt on (lines 272–279). -/
def intensified (user_prompt : String) : String :=
  user_prompt ++ "\n\nWICHTIG: Antworte NUR mit validem JSON. Alle Anführungszeichen innerhalb von String-Werten MÜSSEN mit \\\" escaped werden. Keine Erklärungen, nur JSON."

/-- The user message of attempt `i` (0-based): the plain prompt first, the
intensified prompt on every retry. -/
def attemptPrompt (user_prompt : String) : Nat → String
  | 0 => user_prompt
  | _ + 1 => intensified user_prompt

/-- The retry loop (lines 264–317), also returning the list of user messages
sent, in order.  `remaining` counts the retries still allowed; on failure
with no retries left, the result is the last attempt's error — the code
re-raises `last_error` itself. -/
def callAux {α : Type} (validate : String → Except String α)
    (engine : Nat → String → String) (user_prompt : String) :
    Nat → Nat → Except CallError α × List String
  | attempt, 0 =>
    match attemptOnce validate (engine attempt (attemptPrompt user_prompt attempt)) with
    | Except.ok a => (Except.ok a, [attemptPrompt user_prompt attempt])
    | Except.error e => (Except.error e, [attemptPrompt user_prompt attempt])
  | attempt, r + 1 =>
    match attemptOnce validate (engine attempt (attemptPrompt user_prompt attempt)) with
    | Except.ok a => (Except.ok a, [attemptPrompt user_prompt attempt])
    | Except.error _ =>
      ((callAux validate engine user_prompt (attempt + 1) r).1,
        attemptPrompt user_prompt attempt :: (callAux validate engine user_prompt (attempt + 1) r).2)

/-- Default of the `max_retries` parameter (line 227). -/
def defaultMaxRetries : Nat := 2

/-- `call_claude_structured`. -/
def call_claude_structured {α : Type} (validate : String → Except String α)
    (engine : Nat → String → String) (user_prompt : String) (max_retries : Nat) :
    Except CallError α × List String :=
  callAux validate engine user_prompt 0 max_retries

/-- What it would mean for a raised attempt error to carry a given raw
buffer: a parse error carries exactly its failing document, a validation
error carries no source text at all. -/
def carriesRawBuffer : CallError → String → Prop
  | CallError.parseError doc, b => doc = b
  | CallError.validationError _, _ => False

/-! ### `search_evidence` (src/agent/tools.py 31–77)

The evidence provider is an oracle `provider : String → Except String (List
RawResult)` — per query, either the provider's result list (the spec's
(url, title, content, score) tuples) or a raised provider error.  The code
takes each field with `.get(...)` and a default; the provider boundary in
the spec guarantees all four fields, so they are plain fields here. -/

structure RawResult where
  url : String
  title : String
  content : String
  score : ℚ
deriving DecidableEq

structure SearchResult where
  url : String
  title : String
  content : String
  score : ℚ
  query : String
deriving DecidableEq

/-- Collect one query's results (lines 57–67): keep a result whose URL is
unseen, truncating content to 500 characters; thread the `seen_urls` set
through (modelled as a list). -/
def collectQuery (q : String) : List String → List RawResult → List String × List SearchResult
  | seen, [] => (seen, [])
  | seen, r :: rest =>
    if r.url ∈ seen then collectQuery q seen rest
    else
      let t := collectQuery q (r.url :: seen) rest
      (t.1, ⟨r.url, r.title, String.mk (r.content.data.take 500), r.score, q⟩ :: t.2)

/-- The query loop (lines 46–71): a failing query is skipped; `seen_urls`
persists across queries. -/
def collectAll (provider : String → Except String (List RawResult)) :
    List String → List String → List SearchResult
  | _, [] => []
  | seen, q :: qs =>
    match provider q with
    | Except.error _ => collectAll provider seen qs
    | Except.ok rs =>
      let t := collectQuery q seen rs
      t.2 ++ collectAll provider t.1 qs

/-- Descending-by-score comparison used for the final sort: `a` may come
before `b` iff `a.score ≥ b.score`.  Python's `list.sort(key=..., reverse=
True)` is a stable sort for exactly this total preorder, so it computes the
same function as any stable sort, in particular insertion sort. -/
def scoreGe (a b : SearchResult) : Prop := b.score ≤ a.score

instance : DecidableRel scoreGe := fun a b => inferInstanceAs (Decidable (b.score ≤ a.score))

instance : IsTotal SearchResult scoreGe :=
  ⟨fun a b => (le_total b.score a.score).imp id id⟩

instance : IsTrans SearchResult scoreGe :=
  ⟨fun _ _ _ hab hbc => le_trans hbc hab⟩

/-- `search_evidence`: merge with URL dedup, then sort by score descending
(stable). -/
def search_evidence (provider : String → Except String (List RawResult))
    (queries : List String) : List SearchResult :=
  List.insertionSort scoreGe (collectAll provider [] queries)

/-! ### `evaluate_evidence` (src/agent/nodes.py 420–479)

The per-sub-claim verdict call is an oracle
`llm : String → List SearchResult → Except String SubClaimVerdict`
abstracting `call_claude_structured(...)` on the prompt built from the
sub-claim text and its formatted search results: `Except.ok` is the
validated verdict, `Except.error` the stringified exception after the retry
budget is exhausted.  `EvalResult.invoked` instruments which sub-claim
texts reached the reasoning-engine call (the only call site is the
non-empty-evidence branch). -/

/-- `search_results.get(claim, [])`, for the dict built by
`retrieve_evidence` (unique keys). -/
def lookupSR : List (String × List SearchResult) → String → List SearchResult
  | [], _ => []
  | (k, v) :: rest, key => if k = key then v else lookupSR rest key

/-- Python dict insertion: replace the value of an existing key in place,
else append. -/
def dictInsert {α : Type} : List (String × α) → String → α → List (String × α)
  | [], k, v => [(k, v)]
  | (k0, v0) :: rest, k, v =>
    if k0 = k then (k0, v) :: rest else (k0, v0) :: dictInsert rest k v

/-- The fixed verdict for a sub-claim with no retrieved sources
(lines 441–449). -/
def noSourcesVerdict (c : String) : SubClaimVerdict :=
  ⟨c, Verdict.UNVERIFIABLE, 1 / 10, [], "Keine relevanten Quellen gefunden."⟩

/-- The fallback verdict when the structured call for a sub-claim raised `e`
(lines 468–477). -/
def evalFailedVerdict (c e : String) : SubClaimVerdict :=
  ⟨c, Verdict.UNVERIFIABLE, 0, [], "Bewertung fehlgeschlagen: " ++ e⟩

structure EvalResult where
  sub_verdicts : List SubClaimVerdict
  invoked : List String
deriving DecidableEq

/-- The per-sub-claim loop of `evaluate_evidence` (lines 435–477). -/
def evalSubClaims (llm : String → List SearchResult → Except String SubClaimVerdict)
    (search_results : List (String × List SearchResult)) :
    List SubClaim → EvalResult
  | [] => ⟨[], []⟩
  | sc :: rest =>
    let results := lookupSR search_results sc.claim
    let t := evalSubClaims llm search_results rest
    if results = [] then
      ⟨noSourcesVerdict sc.claim :: t.sub_verdicts, t.invoked⟩
    else
      match llm sc.claim results with
      | Except.ok v => ⟨v :: t.sub_verdicts, sc.claim :: t.invoked⟩
      | Except.error e => ⟨evalFailedVerdict sc.claim e :: t.sub_verdicts, sc.claim :: t.invoked⟩

/-! ### Human-feedback merge inside `synthesize_verdict` (src/agent/nodes.py 534–548) -/

/-- The in-place update one correction performs on the sub-verdict list: for
every sub-verdict with matching claim text, overwrite the verdict and, when
a (truthy) comment is present, append the provenance tag.  A correction
whose `corrected_verdict` is `None` (falsy) does nothing. -/
def apply_correction (fb : SubClaimFeedback) (svs : List SubClaimVerdict) :
    List SubClaimVerdict :=
  match fb.corrected_verdict with
  | none => svs
  | some v =>
    svs.map fun sv =>
      if sv.claim = fb.claim then
        { sv with
          verdict := v
          reasoning :=
            match fb.user_comment with
            | some c => if c = "" then sv.reasoning
                        else sv.reasoning ++ " [User-Korrektur: " ++ c ++ "]"
            | none => sv.reasoning }
      else sv

/-- The merge loop: nothing happens without feedback marked reviewed;
otherwise each correction is applied in order. -/
def merge_feedback (feedback : Option HumanFeedback) (svs : List SubClaimVerdict) :
    List SubClaimVerdict :=
  match feedback with
  | none => svs
  | some f =>
    if f.reviewed then f.sub_claim_feedback.foldl (fun acc fb => apply_correction fb acc) svs
    else svs

/-! ### The workflow state machine (src/agent/graph.py)

`GraphState` is the LangGraph TypedDict; `human_feedback` is read by
`synthesize_verdict` via `state.get` (absent, hence `none`, in runs started
by `run_fact_check`).  Each node is modelled as a state transformer built
from the node functions above with its reasoning-engine / provider calls as
oracles; the conditional edges apply the routing functions ported verbatim.
The `"error"` label of every conditional edge routes to `END`; the spec's
absorbing `Error` state is this error-labelled termination, kept distinct
from the `Done` termination after `Synthesize`. -/

structure GState where
  claim : String
  decomposition : Option ClaimDecomposition
  search_results : List (String × List SearchResult)
  sub_verdicts : List SubClaimVerdict
  human_feedback : Option HumanFeedback
  final_result : Option FactCheckResult
  error : Option String
deriving DecidableEq

/-- Truthiness of `state.get("error")`: `None` and `""` are falsy. -/
def truthyStr : Option String → Bool
  | none => false
  | some s => if s = "" then false else true

/-- `should_continue_after_decomposition` (graph.py 54–70). -/
def should_continue_after_decomposition (st : GState) : String :=
  if truthyStr st.error then "error"
  else
    match st.decomposition with
    | none => "error"
    | some d => if d.sub_claims = [] then "error" else "continue"

/-- `should_continue_after_evidence` (graph.py 73–77). -/
def should_continue_after_evidence (st : GState) : String :=
  if truthyStr st.error then "error" else "continue"

/-- `should_continue_after_evaluation` (graph.py 80–86). -/
def should_continue_after_evaluation (st : GState) : String :=
  if truthyStr st.error then "error"
  else if st.sub_verdicts = [] then "error"
  else "continue"

/-- `decompose_claim` (nodes.py 355–382) with the structured call as oracle:
on success the delta sets `decomposition`, on failure it sets `error`. -/
def apply_decompose (o : Except String ClaimDecomposition) (st : GState) : GState :=
  match o with
  | Except.ok d => { st with decomposition := some d }
  | Except.error e => { st with error := some ("Fehler bei der Zerlegung: " ++ e) }

/-- `retrieve_evidence` (nodes.py 389–413): build the claim-text → results
dict with `search_evidence` per sub-claim. -/
def apply_retrieve (provider : String → Except String (List RawResult)) (st : GState) :
    GState :=
  match st.decomposition with
  | none => { st with error := some "Keine Zerlegung vorhanden" }
  | some d =>
    { st with
      search_results :=
        d.sub_claims.foldl
          (fun acc sc => dictInsert acc sc.claim (search_evidence provider sc.search_queries))
          [] }

/-- `evaluate_evidence` (nodes.py 420–479) as a state transformer. -/
def apply_evaluate (llm : String → List SearchResult → Except String SubClaimVerdict)
    (st : GState) : GState :=
  match st.decomposition with
  | none => { st with error := some "Keine Zerlegung vorhanden" }
  | some d =>
    { st with sub_verdicts := (evalSubClaims llm st.search_results d.sub_claims).sub_verdicts }

/-- `synthesize_verdict` (nodes.py 516–581): guard on empty sub-verdicts,
merge human feedback in place (the mutation is visible in the state), then
the final structured call as oracle. -/
def apply_synthesize
    (llmS : String → List SubClaimVerdict → Option HumanFeedback → Except String FactCheckResult)
    (st : GState) : GState :=
  if st.sub_verdicts = [] then { st with error := some "Keine Einzelbewertungen vorhanden" }
  else
    let merged := merge_feedback st.human_feedback st.sub_verdicts
    match llmS st.claim merged st.human_feedback with
    | Except.ok r => { st with sub_verdicts := merged, final_result := some r }
    | Except.error e =>
      { st with sub_verdicts := merged, error := some ("Fehler bei der Zusammenfassung: " ++ e) }

inductive Stage
  | decompose
  | retrieve
  | evaluate
  | synthesize
  | done
  | err
deriving DecidableEq

/-- Apply a conditional edge: `"continue"` goes to `cont`, anything else to
the error termination. -/
def routeTo (cont : Stage) (route : String) (st : GState) : Stage × GState :=
  if route = "continue" then (cont, st) else (Stage.err, st)

/-- One transition of the compiled graph: run the stage's node (with an
arbitrary oracle for its external calls) and follow its conditional edge.
`Synthesize` has an unconditional edge to `END`. -/
inductive WStep : Stage × GState → Stage × GState → Prop
  | decomp (st : GState) (o : Except String ClaimDecomposition) :
      WStep (Stage.decompose, st)
        (routeTo Stage.retrieve
          (should_continue_after_decomposition (apply_decompose o st)) (apply_decompose o st))
  | retrieve (st : GState) (provider : String → Except String (List RawResult)) :
      WStep (Stage.retrieve, st)
        (routeTo Stage.evaluate
          (should_continue_after_evidence (apply_retrieve provider st))
          (apply_retrieve provider st))
  | evaluate (st : GState)
      (llm : String → List SearchResult → Except String SubClaimVerdict) :
      WStep (Stage.evaluate, st)
        (routeTo Stage.synthesize
          (should_continue_after_evaluation (apply_evaluate llm st)) (apply_evaluate llm st))
  | synth (st : GState)
      (llmS : String → List SubClaimVerdict → Option HumanFeedback →
        Except String FactCheckResult) :
      WStep (Stage.synthesize, st) (Stage.done, apply_synthesize llmS st)

/-- The initial state of `run_fact_check` (graph.py 169–176). -/
def init_state (claim : String) : GState :=
  ⟨claim, none, [], [], none, none, none⟩

/-- Reachability of a (stage, state) pair in a run on `claim`. -/
def Reach (claim : String) (p : Stage × GState) : Prop :=
  Relation.ReflTransGen WStep (Stage.decompose, init_state claim) p

/-! ### Claims about the repair algorithm -/

/-- C3: applying the repair function to
`{"a": 1, "b": "she said "hi" then left",}` (unescaped interior quotes
around `hi`, trailing comma) yields the valid JSON text
`{"a": 1, "b": "she said \"hi\" then left"}`. -/
theorem c3_scenario_quote_repair :
    repair_json "\x7b\"a\": 1, \"b\": \"she said \"hi\" then left\",\x7d"
        = "\x7b\"a\": 1, \"b\": \"she said \\\"hi\\\" then left\"\x7d"
      ∧ jsonOk "\x7b\"a\": 1, \"b\": \"she said \\\"hi\\\" then left\"\x7d" = true := by
  constructor
  · decide
  · decide

/-- C4: applying the repair function to the truncated `{"a": {"b": 1`
(missing two closing braces) yields `{"a": {"b": 1}}`: bracket-balance
repair appends the matching closers for the unclosed braces in
innermost-first order, and the result is valid JSON. -/
theorem c4_scenario_bracket_repair :
    repair_json "\x7b\"a\": \x7b\"b\": 1" = "\x7b\"a\": \x7b\"b\": 1\x7d\x7d"
      ∧ jsonOk "\x7b\"a\": \x7b\"b\": 1\x7d\x7d" = true := by
  constructor
  · decide
  · decide

/-- C2 counterexample: the repair function is not idempotent.  On `,,,}`
each full pass removes one trailing comma in the first regex sweep and one
more in the final sweep (the regex cannot match a comma whose next
non-whitespace character is another comma), so
`repair_json ",,,}" = ",}"` but `repair_json ",}" = "}"`. -/
theorem c2_idempotence_counterexample :
    repair_json (repair_json ",,,\x7d") ≠ repair_json ",,,\x7d" := by
  decide

/-- C2 amended: the repair function is idempotent on every input whose
single repair yields a text that (i) does not contain more single than
double quotes, (ii) is unchanged by the trailing-comma strip, and (iii)
parses as JSON — then the second application returns its input at the early
parse check.  In general a second application can strip further trailing
commas (counterexample `,,,}`). -/
theorem c2_repair_idempotent_on_parsing_outputs (s : String)
    (h1 : ¬ (repair_json s).data.count sqc > (repair_json s).data.count dq)
    (h2 : strip_trailing_commas (repair_json s) = repair_json s)
    (h3 : jsonOk (repair_json s) = true) :
    repair_json (repair_json s) = repair_json s := by
  generalize hgen : repair_json s = r at h1 h2 h3 ⊢
  unfold repair_json quote_swap
  rw [if_neg h1, h2]
  unfold repair_tail
  rw [if_pos h3]

/-- Witness for the amended C2 at the concrete input `{"a": 1,}`, whose
repair is the valid JSON `{"a": 1}`. -/
theorem c2_repair_idempotent_witness :
    repair_json (repair_json "\x7b\"a\": 1,\x7d") = repair_json "\x7b\"a\": 1,\x7d" :=
  c2_repair_idempotent_on_parsing_outputs "\x7b\"a\": 1,\x7d"
    (by decide) (by decide) (by decide)

/-! ### Claims about the retry protocol of `call_claude_structured` -/

lemma attemptPrompt_zero (up : String) : attemptPrompt up 0 = up := rfl

lemma attemptPrompt_one (up : String) : attemptPrompt up 1 = intensified up := rfl

lemma attemptPrompt_two (up : String) : attemptPrompt up 2 = intensified up := rfl

/-- C1 amended: on any parse or shape-validation failure, if retry budget
remains the call is re-issued with the intensified instruction; the default
retry budget is 2 additional attempts (3 total: the messages sent are the
plain prompt followed by two intensified prompts); and after the budget is
exhausted the engine re-raises the last parse/validation exception itself —
no wrapper object carrying the last raw buffer is created. -/
theorem c1_retry_protocol {α : Type} (validate : String → Except String α)
    (engine : Nat → String → String) (up : String)
    (hfail : ∀ i, i ≤ defaultMaxRetries →
      ∃ e, attemptOnce validate (engine i (attemptPrompt up i)) = Except.error e) :
    defaultMaxRetries = 2
    ∧ (call_claude_structured validate engine up defaultMaxRetries).2
        = up :: List.replicate defaultMaxRetries (intensified up)
    ∧ ∀ e, attemptOnce validate (engine defaultMaxRetries (intensified up)) = Except.error e →
        (call_claude_structured validate engine up defaultMaxRetries).1 = Except.error e := by
  obtain ⟨e0, h0⟩ := hfail 0 (by decide)
  obtain ⟨e1, h1⟩ := hfail 1 (by decide)
  obtain ⟨e2, h2⟩ := hfail 2 (by decide)
  rw [attemptPrompt_zero] at h0
  rw [attemptPrompt_one] at h1
  rw [attemptPrompt_two] at h2
  refine ⟨rfl, ?_, ?_⟩
  · show (callAux validate engine up 0 2).2 = _
    simp [callAux, attemptPrompt_zero, attemptPrompt_one, attemptPrompt_two, h0, h1, h2,
      defaultMaxRetries]
  · intro e he
    have he2 : attemptOnce validate (engine 2 (intensified up)) = Except.error e := he
    show (callAux validate engine up 0 2).1 = _
    simp [callAux, attemptPrompt_zero, attemptPrompt_one, attemptPrompt_two, h0, h1, he2]

/-- A validator that always rejects the parsed value (a shape violation, as
pydantic raises it). -/
def c1Validate : String → Except String Unit :=
  fun _ => Except.error "shape validation failed"

/-- An engine whose every attempt streams the parseable buffer `{}`. -/
def c1Engine : Nat → String → String := fun _ _ => "\x7b\x7d"

/-- C1 counterexample: after the retry budget is exhausted the code
re-raises the last exception itself (`raise last_error`, nodes.py 317);
there is no `CoercionFailure` wrapper, and the signaled error does not
carry the last raw buffer.  Concretely: every attempt streams `{}`, which
parses but fails shape validation, and the error finally signaled is the
bare validation error, which carries no source text — in particular not the
last raw buffer `{}`. -/
theorem c1_coercion_failure_counterexample :
    (call_claude_structured c1Validate c1Engine "task" defaultMaxRetries).1
        = Except.error (CallError.validationError "shape validation failed")
    ∧ ¬ carriesRawBuffer (CallError.validationError "shape validation failed") "\x7b\x7d" :=
  ⟨rfl, fun h => h⟩

/-- Witness for `c1_retry_protocol` at the concrete always-failing run. -/
theorem c1_retry_protocol_witness :
    (call_claude_structured c1Validate c1Engine "task" defaultMaxRetries).2
        = "task" :: List.replicate defaultMaxRetries (intensified "task")
    ∧ (call_claude_structured c1Validate c1Engine "task" defaultMaxRetries).1
        = Except.error (CallError.validationError "shape validation failed") := by
  have h := c1_retry_protocol c1Validate c1Engine "task"
    (fun i _ => ⟨CallError.validationError "shape validation failed", rfl⟩)
  exact ⟨h.2.1, h.2.2 _ rfl⟩

/-! ### Claims about the Evaluate stage -/

/-- The verdict `evaluate_evidence` produces for one sub-claim: the fixed
no-sources verdict, the engine's verdict, or the fallback verdict for a
raised engine error. -/
def verdictFor (llm : String → List SearchResult → Except String SubClaimVerdict)
    (search_results : List (String × List SearchResult)) (sc : SubClaim) : SubClaimVerdict :=
  let results := lookupSR search_results sc.claim
  if results = [] then noSourcesVerdict sc.claim
  else
    match llm sc.claim results with
    | Except.ok v => v
    | Except.error e => evalFailedVerdict sc.claim e

lemma evalSubClaims_cons_verdicts (llm : String → List SearchResult → Except String SubClaimVerdict)
    (sr : List (String × List SearchResult)) (sc : SubClaim) (rest : List SubClaim) :
    (evalSubClaims llm sr (sc :: rest)).sub_verdicts
      = verdictFor llm sr sc :: (evalSubClaims llm sr rest).sub_verdicts := by
  by_cases hres : lookupSR sr sc.claim = []
  · simp [evalSubClaims, verdictFor, hres]
  · cases hl : llm sc.claim (lookupSR sr sc.claim) <;>
      simp [evalSubClaims, verdictFor, hres, hl]

lemma evalSubClaims_cons_invoked (llm : String → List SearchResult → Except String SubClaimVerdict)
    (sr : List (String × List SearchResult)) (sc : SubClaim) (rest : List SubClaim) :
    (evalSubClaims llm sr (sc :: rest)).invoked
      = if lookupSR sr sc.claim = [] then (evalSubClaims llm sr rest).invoked
        else sc.claim :: (evalSubClaims llm sr rest).invoked := by
  by_cases hres : lookupSR sr sc.claim = []
  · simp [evalSubClaims, hres]
  · cases hl : llm sc.claim (lookupSR sr sc.claim) <;> simp [evalSubClaims, hres, hl]

lemma evalSubClaims_length (llm : String → List SearchResult → Except String SubClaimVerdict)
    (sr : List (String × List SearchResult)) (scs : List SubClaim) :
    (evalSubClaims llm sr scs).sub_verdicts.length = scs.length := by
  induction scs with
  | nil => rfl
  | cons sc rest ih => rw [evalSubClaims_cons_verdicts, List.length_cons, ih, List.length_cons]

lemma evalSubClaims_get (llm : String → List SearchResult → Except String SubClaimVerdict)
    (sr : List (String × List SearchResult)) (scs : List SubClaim) (i : Nat) (sc : SubClaim)
    (hsc : scs.get? i = some sc) :
    (evalSubClaims llm sr scs).sub_verdicts.get? i = some (verdictFor llm sr sc) := by
  induction scs generalizing i with
  | nil => simp at hsc
  | cons hd rest ih =>
    rw [evalSubClaims_cons_verdicts]
    cases i with
    | zero => simp at hsc; rw [hsc]; rfl
    | succ j => simp only [List.get?_cons_succ] at hsc ⊢; exact ih j hsc

/-- Only sub-claims with non-empty retrieved evidence reach the
reasoning-engine call. -/
lemma evalSubClaims_invoked_nonempty
    (llm : String → List SearchResult → Except String SubClaimVerdict)
    (sr : List (String × List SearchResult)) (scs : List SubClaim) (c : String)
    (hmem : c ∈ (evalSubClaims llm sr scs).invoked) : lookupSR sr c ≠ [] := by
  induction scs with
  | nil => simp [evalSubClaims] at hmem
  | cons hd rest ih =>
    rw [evalSubClaims_cons_invoked] at hmem
    by_cases hres : lookupSR sr hd.claim = []
    · rw [if_pos hres] at hmem; exact ih hmem
    · rw [if_neg hres] at hmem
      rcases List.mem_cons.mp hmem with hc | hc
      · rw [hc]; exact hres
      · exact ih hc

/-- C6: for every sub-claim whose retrieved evidence list is empty, the
Evaluate stage produces the fixed `unverifiable` verdict with confidence
0.1 (hence ≤ 0.1), and the reasoning engine is not invoked for that
sub-claim's text. -/
theorem c6_empty_evidence_unverifiable
    (llm : String → List SearchResult → Except String SubClaimVerdict)
    (sr : List (String × List SearchResult)) (scs : List SubClaim) (i : Nat) (sc : SubClaim)
    (hsc : scs.get? i = some sc) (hemp : lookupSR sr sc.claim = []) :
    (evalSubClaims llm sr scs).sub_verdicts.get? i = some (noSourcesVerdict sc.claim)
    ∧ (noSourcesVerdict sc.claim).verdict = Verdict.UNVERIFIABLE
    ∧ (noSourcesVerdict sc.claim).confidence ≤ 1 / 10
    ∧ sc.claim ∉ (evalSubClaims llm sr scs).invoked := by
  refine ⟨?_, rfl, le_refl _, ?_⟩
  · rw [evalSubClaims_get llm sr scs i sc hsc]
    simp [verdictFor, hemp]
  · intro hmem
    exact evalSubClaims_invoked_nonempty llm sr scs sc.claim hmem hemp

/-- Witness for C6: one sub-claim, no retrieved evidence at all. -/
theorem c6_empty_evidence_witness :
    (evalSubClaims (fun _ _ => Except.error "unused") [] [⟨"s", ["q"]⟩]).sub_verdicts.get? 0
        = some (noSourcesVerdict "s")
    ∧ (noSourcesVerdict "s").verdict = Verdict.UNVERIFIABLE
    ∧ (noSourcesVerdict "s").confidence ≤ 1 / 10
    ∧ "s" ∉ (evalSubClaims (fun _ _ => Except.error "unused") [] [⟨"s", ["q"]⟩]).invoked :=
  c6_empty_evidence_unverifiable (fun _ _ => Except.error "unused") [] [⟨"s", ["q"]⟩] 0
    ⟨"s", ["q"]⟩ rfl rfl

/-- C7: a per-sub-claim coercion failure is caught: the stage appends an
`unverifiable` verdict with confidence 0 whose justification carries the
error text as a suffix, every other sub-claim is still evaluated (one
verdict per sub-claim), and the node never sets the state's error field
when a decomposition is present. -/
theorem c7_eval_failure_recovered
    (llm : String → List SearchResult → Except String SubClaimVerdict)
    (sr : List (String × List SearchResult)) (scs : List SubClaim) (i : Nat) (sc : SubClaim)
    (e : String) (hsc : scs.get? i = some sc) (hne : lookupSR sr sc.claim ≠ [])
    (hllm : llm sc.claim (lookupSR sr sc.claim) = Except.error e) :
    (evalSubClaims llm sr scs).sub_verdicts.get? i = some (evalFailedVerdict sc.claim e)
    ∧ (evalFailedVerdict sc.claim e).verdict = Verdict.UNVERIFIABLE
    ∧ (evalFailedVerdict sc.claim e).confidence = 0
    ∧ e.data <:+ (evalFailedVerdict sc.claim e).reasoning.data
    ∧ (evalSubClaims llm sr scs).sub_verdicts.length = scs.length
    ∧ ∀ st : GState, st.decomposition ≠ none → (apply_evaluate llm st).error = st.error := by
  refine ⟨?_, rfl, rfl, ?_, evalSubClaims_length llm sr scs, ?_⟩
  · rw [evalSubClaims_get llm sr scs i sc hsc]
    simp [verdictFor, hne, hllm]
  · show e.data <:+ ((("Bewertung fehlgeschlagen: " : String) ++ e).data)
    rw [String.data_append]
    exact List.suffix_append _ _
  · intro st hd
    cases hdec : st.decomposition with
    | none => exact absurd hdec hd
    | some d => simp [apply_evaluate, hdec]

/-- Witness for C7: one sub-claim whose structured call raises `boom`. -/
theorem c7_eval_failure_witness :
    (evalSubClaims (fun _ _ => Except.error "boom") [("s", [⟨"u", "t", "c", 1, "q"⟩])]
        [⟨"s", ["q"]⟩]).sub_verdicts.get? 0 = some (evalFailedVerdict "s" "boom")
    ∧ (evalFailedVerdict "s" "boom").verdict = Verdict.UNVERIFIABLE
    ∧ (evalFailedVerdict "s" "boom").confidence = 0
    ∧ "boom".data <:+ (evalFailedVerdict "s" "boom").reasoning.data
    ∧ (evalSubClaims (fun _ _ => Except.error "boom") [("s", [⟨"u", "t", "c", 1, "q"⟩])]
        [⟨"s", ["q"]⟩]).sub_verdicts.length = [(⟨"s", ["q"]⟩ : SubClaim)].length
    ∧ ∀ st : GState, st.decomposition ≠ none →
        (apply_evaluate (fun _ _ => Except.error "boom") st).error = st.error :=
  c7_eval_failure_recovered (fun _ _ => Except.error "boom") [("s", [⟨"u", "t", "c", 1, "q"⟩])]
    [⟨"s", ["q"]⟩] 0 ⟨"s", ["q"]⟩ "boom" rfl (by decide) rfl

/-- A decomposition with the single sub-claim text `X`. -/
def c10Scs : List SubClaim := [⟨"X", ["q"]⟩]

/-- Retrieved evidence for `X`. -/
def c10Sr : List (String × List SearchResult) := [("X", [⟨"u", "t", "c", 1, "q"⟩])]

/-- An engine returning a validated verdict whose `claim` field is `Y`. -/
def c10Llm : String → List SearchResult → Except String SubClaimVerdict :=
  fun _ _ => Except.ok ⟨"Y", Verdict.TRUE, 1, [], "r"⟩

/-- C10 counterexample: on the success path `evaluate_evidence` appends the
engine's verdict as returned (nodes.py 465), so the claim field of the i-th
verdict is whatever the engine said, not necessarily the i-th sub-claim's
text: with evidence present for sub-claim `X` and an engine answering with
claim field `Y`, the verdict list's claim fields differ from the sub-claim
texts. -/
theorem c10_claim_field_counterexample :
    (evalSubClaims c10Llm c10Sr c10Scs).sub_verdicts.map SubClaimVerdict.claim
      ≠ c10Scs.map SubClaim.claim := by
  decide

/-- C10 amended: the Evaluate stage returns exactly one verdict per
sub-claim, in decomposition order; the i-th verdict is the no-sources
verdict (claim field = the i-th sub-claim's text) when its evidence is
empty, the fallback verdict (claim field = the i-th sub-claim's text) when
the engine call fails, and the engine's returned verdict — with whatever
claim field the engine produced — on success.  Consequently, with a
non-empty decomposition and no prior error, the routing after Evaluate is
always `"continue"`: the empty-verdict-list error transition is
unreachable. -/
theorem c10_verdicts_align
    (llm : String → List SearchResult → Except String SubClaimVerdict)
    (sr : List (String × List SearchResult)) (scs : List SubClaim) :
    (evalSubClaims llm sr scs).sub_verdicts.length = scs.length
    ∧ (∀ i sc, scs.get? i = some sc → lookupSR sr sc.claim = [] →
        (evalSubClaims llm sr scs).sub_verdicts.get? i = some (noSourcesVerdict sc.claim))
    ∧ (∀ i sc e, scs.get? i = some sc → llm sc.claim (lookupSR sr sc.claim) = Except.error e →
        ((evalSubClaims llm sr scs).sub_verdicts.get? i).map SubClaimVerdict.claim
          = some sc.claim)
    ∧ (∀ i sc v, scs.get? i = some sc → lookupSR sr sc.claim ≠ [] →
        llm sc.claim (lookupSR sr sc.claim) = Except.ok v →
        (evalSubClaims llm sr scs).sub_verdicts.get? i = some v)
    ∧ (∀ st : GState, ∀ d, st.decomposition = some d → d.sub_claims ≠ [] →
        truthyStr st.error = false →
        should_continue_after_evaluation (apply_evaluate llm st) = "continue") := by
  refine ⟨evalSubClaims_length llm sr scs, ?_, ?_, ?_, ?_⟩
  · intro i sc hsc hemp
    rw [evalSubClaims_get llm sr scs i sc hsc]
    simp [verdictFor, hemp]
  · intro i sc e hsc hllm
    rw [evalSubClaims_get llm sr scs i sc hsc]
    by_cases hemp : lookupSR sr sc.claim = []
    · simp [verdictFor, hemp, noSourcesVerdict]
    · simp [verdictFor, hemp, hllm, evalFailedVerdict]
  · intro i sc v hsc hne hllm
    rw [evalSubClaims_get llm sr scs i sc hsc]
    simp [verdictFor, hne, hllm]
  · intro st d hdec hne herr
    have hverd : (apply_evaluate llm st).sub_verdicts ≠ [] := by
      simp only [apply_evaluate, hdec]
      intro hnil
      have hlen := evalSubClaims_length llm st.search_results d.sub_claims
      rw [hnil] at hlen
      exact hne (List.eq_nil_of_length_eq_zero hlen.symm)
    have herr2 : (apply_evaluate llm st).error = st.error := by
      simp [apply_evaluate, hdec]
    unfold should_continue_after_evaluation
    rw [herr2, herr, if_neg (by simp), if_neg hverd]

/-- Witness for C10 amended: the unreachability consequence at a concrete
state with one sub-claim. -/
theorem c10_verdicts_align_witness :
    should_continue_after_evaluation
        (apply_evaluate c10Llm
          ⟨"X", some ⟨"X", ClaimType.FACTUAL, "de", c10Scs⟩, c10Sr, [], none, none, none⟩)
      = "continue" :=
  (c10_verdicts_align c10Llm c10Sr c10Scs).2.2.2.2
    ⟨"X", some ⟨"X", ClaimType.FACTUAL, "de", c10Scs⟩, c10Sr, [], none, none, none⟩
    ⟨"X", ClaimType.FACTUAL, "de", c10Scs⟩ rfl (by decide) rfl

/-! ### Claims about `search_evidence` -/

lemma collectQuery_spec (q : String) (rs : List RawResult) :
    ∀ seen : List String,
      ((collectQuery q seen rs).2.map SearchResult.url).Nodup
      ∧ (∀ u, u ∈ (collectQuery q seen rs).2.map SearchResult.url → u ∉ seen)
      ∧ (∀ u, u ∈ (collectQuery q seen rs).1
          ↔ u ∈ seen ∨ u ∈ (collectQuery q seen rs).2.map SearchResult.url) := by
  induction rs with
  | nil => intro seen; simp [collectQuery]
  | cons r rest ih =>
    intro seen
    by_cases hmem : r.url ∈ seen
    · simpa [collectQuery, hmem] using ih seen
    · obtain ⟨ih1, ih2, ih3⟩ := ih (r.url :: seen)
      refine ⟨?_, ?_, ?_⟩
      · simp only [collectQuery, hmem, if_false, List.map_cons, List.nodup_cons]
        refine ⟨fun hcon => ?_, ih1⟩
        exact ih2 r.url hcon (List.mem_cons_self r.url seen)
      · simp only [collectQuery, hmem, if_false, List.map_cons, List.mem_cons]
        rintro u (rfl | hu)
        · exact hmem
        · exact fun hseen => ih2 u hu (List.mem_cons_of_mem _ hseen)
      · simp only [collectQuery, hmem, if_false, List.map_cons, List.mem_cons]
        intro u
        rw [ih3 u, List.mem_cons]
        tauto

lemma collectAll_spec (provider : String → Except String (List RawResult))
    (qs : List String) :
    ∀ seen : List String,
      ((collectAll provider seen qs).map SearchResult.url).Nodup
      ∧ ∀ u, u ∈ (collectAll provider seen qs).map SearchResult.url → u ∉ seen := by
  induction qs with
  | nil => intro seen; simp [collectAll]
  | cons q qs ih =>
    intro seen
    cases hq : provider q with
    | error e => simpa [collectAll, hq] using ih seen
    | ok rs =>
      obtain ⟨q1, q2, q3⟩ := collectQuery_spec q rs seen
      obtain ⟨ih1, ih2⟩ := ih (collectQuery q seen rs).1
      have hsub : ∀ u, u ∈ (collectAll provider (collectQuery q seen rs).1 qs).map
          SearchResult.url → u ∉ seen ∧ u ∉ (collectQuery q seen rs).2.map SearchResult.url := by
        intro u hu
        have hnot := ih2 u hu
        rw [q3 u] at hnot
        exact ⟨fun hs => hnot (Or.inl hs), fun hm => hnot (Or.inr hm)⟩
      constructor
      · simp only [collectAll, hq, List.map_append]
        rw [List.nodup_append]
        refine ⟨q1, ih1, ?_⟩
        intro u hu hu2
        exact (hsub u hu2).2 hu
      · simp only [collectAll, hq, List.map_append, List.mem_append]
        rintro u (hu | hu)
        · exact q2 u hu
        · exact (hsub u hu).1

/-- C8 amended: for every provider behaviour and query list, the output of
`search_evidence` contains no two records with the same URL (it is a
permutation of the first-occurrence-wins merge `collectAll`, which keeps
the first record seen for each URL in order of first appearance across
queries), and it is sorted descending by the provider's relevance score —
non-strictly: `list.sort(..., reverse=True)` is a stable sort and preserves
ties. -/
theorem c8_dedup_and_sorted (provider : String → Except String (List RawResult))
    (queries : List String) :
    ((search_evidence provider queries).map SearchResult.url).Nodup
    ∧ List.Sorted scoreGe (search_evidence provider queries)
    ∧ List.Perm (search_evidence provider queries) (collectAll provider [] queries) := by
  have hperm : List.Perm (search_evidence provider queries) (collectAll provider [] queries) :=
    List.perm_insertionSort scoreGe (collectAll provider [] queries)
  refine ⟨?_, List.sorted_insertionSort scoreGe (collectAll provider [] queries), hperm⟩
  exact ((hperm.map SearchResult.url).nodup_iff).mpr (collectAll_spec provider queries []).1

/-- Provider returning two distinct URLs with equal scores for any query. -/
def c8Provider : String → Except String (List RawResult) :=
  fun _ => Except.ok [⟨"u1", "t1", "c1", 1⟩, ⟨"u2", "t2", "c2", 1⟩]

/-- C8 counterexample: the output order is not strictly descending by
score — two records with equal provider scores are both kept (their URLs
differ) and appear with equal adjacent scores. -/
theorem c8_strict_descending_counterexample :
    ¬ List.Sorted (fun a b : SearchResult => b.score < a.score)
        (search_evidence c8Provider ["q"]) := by
  intro h
  rw [show search_evidence c8Provider ["q"]
      = [⟨"u1", "t1", "c1", 1, "q"⟩, ⟨"u2", "t2", "c2", 1, "q"⟩] from by decide] at h
  have hlt := (List.sorted_cons.mp h).1 _ (List.mem_singleton.mpr rfl)
  exact absurd hlt (by norm_num)

/-! ### Claims about the human-feedback merge -/

/-- C9 amended: without feedback, or with feedback not marked reviewed, the
sub-verdict list is unchanged; when reviewed, the corrections are applied
in order, and one correction with a present corrected verdict overwrites
the verdict of every sub-verdict with matching claim text in place,
appending the provenance tag ` [User-Korrektur: <comment>]` (the code's
German tag, with a leading space) to its justification when a non-empty
comment is present; a correction with no corrected verdict, or whose claim
text matches no sub-verdict, leaves the list unchanged. -/
theorem c9_merge_feedback (svs : List SubClaimVerdict) (fbs : List SubClaimFeedback)
    (gc : Option String) (fb : SubClaimFeedback) :
    merge_feedback none svs = svs
    ∧ merge_feedback (some ⟨false, fbs, gc⟩) svs = svs
    ∧ merge_feedback (some ⟨true, fbs, gc⟩) svs
        = fbs.foldl (fun acc x => apply_correction x acc) svs
    ∧ (∀ v, fb.corrected_verdict = some v →
        apply_correction fb svs = svs.map fun sv =>
          if sv.claim = fb.claim then
            { sv with
              verdict := v,
              reasoning :=
                (match fb.user_comment with
                 | some c => if c = "" then sv.reasoning
                             else sv.reasoning ++ " [User-Korrektur: " ++ c ++ "]"
                 | none => sv.reasoning) }
          else sv)
    ∧ (fb.corrected_verdict = none → apply_correction fb svs = svs)
    ∧ (fb.claim ∉ svs.map SubClaimVerdict.claim → apply_correction fb svs = svs) := by
  refine ⟨rfl, by simp [merge_feedback], by simp [merge_feedback], ?_, ?_, ?_⟩
  · intro v h
    simp [apply_correction, h]
  · intro h
    simp [apply_correction, h]
  · intro h
    cases hcv : fb.corrected_verdict with
    | none => simp [apply_correction, hcv]
    | some v =>
      simp only [apply_correction, hcv]
      have : ∀ sv ∈ svs, ¬ sv.claim = fb.claim := by
        intro sv hsv heq
        exact h (heq ▸ List.mem_map_of_mem SubClaimVerdict.claim hsv)
      calc svs.map _ = svs.map id := List.map_congr_left fun sv hsv => if_neg (this sv hsv)
        _ = svs := List.map_id svs

/-- The automated sub-verdict used in the concrete C9 instances. -/
def c9Sv : SubClaimVerdict := ⟨"X", Verdict.TRUE, 1, [], "orig"⟩

/-- Reviewed feedback correcting claim `X` to `false` with comment `note`. -/
def c9Fb : HumanFeedback := ⟨true, [⟨"X", some Verdict.FALSE, some "note"⟩], none⟩

/-- C9 counterexample: the provenance note the merger appends is not
`"[user correction: <comment>]"`; the code appends
`" [User-Korrektur: <comment>]"` (nodes.py 548). -/
theorem c9_tag_counterexample :
    merge_feedback (some c9Fb) [c9Sv]
        ≠ [{ c9Sv with
              verdict := Verdict.FALSE,
              reasoning := c9Sv.reasoning ++ "[user correction: note]" }]
    ∧ merge_feedback (some c9Fb) [c9Sv]
        = [{ c9Sv with
              verdict := Verdict.FALSE,
              reasoning := c9Sv.reasoning ++ " [User-Korrektur: note]" }] := by
  constructor
  · decide
  · decide

/-- Witness for C9 amended: a correction naming an unmatched claim text is
silently ignored. -/
theorem c9_merge_feedback_witness :
    apply_correction ⟨"Z", some Verdict.FALSE, none⟩ [c9Sv] = [c9Sv] :=
  (c9_merge_feedback [c9Sv] [] none ⟨"Z", some Verdict.FALSE, none⟩).2.2.2.2.2 (by decide)

/-! ### Claims about the workflow state machine -/

lemma route_continue_nonempty (st : GState)
    (h : should_continue_after_evaluation st = "continue") : st.sub_verdicts ≠ [] := by
  intro hnil
  unfold should_continue_after_evaluation at h
  rw [hnil] at h
  split at h
  · exact absurd h (by decide)
  · rw [if_pos rfl] at h
    exact absurd h (by decide)

/-- C5: in every reachable execution of the workflow state machine, the
Synthesize stage is never entered with an empty sub-verdict list; if the
verdict list in the state after the Evaluate node is empty, the conditional
edge routes to the error termination instead, which is terminal (no
transition leaves it). -/
theorem c5_synthesize_nonempty (claim : String) (p : Stage × GState)
    (h : Reach claim p) :
    (p.1 = Stage.synthesize → p.2.sub_verdicts ≠ [])
    ∧ (∀ (llm : String → List SearchResult → Except String SubClaimVerdict) (st : GState),
        (apply_evaluate llm st).sub_verdicts = [] →
        routeTo Stage.synthesize (should_continue_after_evaluation (apply_evaluate llm st))
            (apply_evaluate llm st)
          = (Stage.err, apply_evaluate llm st))
    ∧ (∀ (s : GState) (q : Stage × GState), ¬ WStep (Stage.err, s) q) := by
  refine ⟨?_, ?_, ?_⟩
  · induction h with
    | refl => intro hstage; simp at hstage
    | tail hr hstep ih =>
      intro hstage
      cases hstep with
      | decomp st o =>
        by_cases hroute :
            should_continue_after_decomposition (apply_decompose o st) = "continue"
        · simp only [routeTo, if_pos hroute] at hstage
          simp at hstage
        · simp only [routeTo, if_neg hroute] at hstage
          simp at hstage
      | retrieve st provider =>
        by_cases hroute :
            should_continue_after_evidence (apply_retrieve provider st) = "continue"
        · simp only [routeTo, if_pos hroute] at hstage
          simp at hstage
        · simp only [routeTo, if_neg hroute] at hstage
          simp at hstage
      | evaluate st llm =>
        by_cases hroute :
            should_continue_after_evaluation (apply_evaluate llm st) = "continue"
        · simp only [routeTo, if_pos hroute]
          exact route_continue_nonempty _ hroute
        · simp only [routeTo, if_neg hroute] at hstage
          simp at hstage
      | synth st llmS =>
        simp at hstage
  · intro llm st hnil
    have hne : should_continue_after_evaluation (apply_evaluate llm st) ≠ "continue" :=
      fun hc => route_continue_nonempty _ hc hnil
    simp only [routeTo, if_neg hne]
  · intro s q hstep
    cases hstep

/-- Concrete one-sub-claim decomposition for the C5 witness run. -/
def c5Decomp : ClaimDecomposition := ⟨"c", ClaimType.FACTUAL, "de", [⟨"s", ["q"]⟩]⟩

/-- A provider whose every query raises. -/
def c5Provider : String → Except String (List RawResult) := fun _ => Except.error "down"

/-- An engine oracle that is never consulted in the witness run. -/
def c5Llm : String → List SearchResult → Except String SubClaimVerdict :=
  fun _ _ => Except.error "unreached"

def c5St1 : GState := apply_decompose (Except.ok c5Decomp) (init_state "c")

def c5St2 : GState := apply_retrieve c5Provider c5St1

def c5St3 : GState := apply_evaluate c5Llm c5St2

/-- Witness for C5: a concrete run (decompose, retrieve with a failing
provider, evaluate) reaches the Synthesize stage, and there the theorem
yields a non-empty sub-verdict list. -/
theorem c5_synthesize_nonempty_witness :
    Reach "c" (Stage.synthesize, c5St3) ∧ c5St3.sub_verdicts ≠ [] := by
  have h1 : WStep (Stage.decompose, init_state "c") (Stage.retrieve, c5St1) := by
    have h := WStep.decomp (init_state "c") (Except.ok c5Decomp)
    have he : routeTo Stage.retrieve
        (should_continue_after_decomposition (apply_decompose (Except.ok c5Decomp)
          (init_state "c")))
        (apply_decompose (Except.ok c5Decomp) (init_state "c")) = (Stage.retrieve, c5St1) := rfl
    exact he ▸ h
  have h2 : WStep (Stage.retrieve, c5St1) (Stage.evaluate, c5St2) := by
    have h := WStep.retrieve c5St1 c5Provider
    have he : routeTo Stage.evaluate
        (should_continue_after_evidence (apply_retrieve c5Provider c5St1))
        (apply_retrieve c5Provider c5St1) = (Stage.evaluate, c5St2) := rfl
    exact he ▸ h
  have h3 : WStep (Stage.evaluate, c5St2) (Stage.synthesize, c5St3) := by
    have h := WStep.evaluate c5St2 c5Llm
    have he : routeTo Stage.synthesize
        (should_continue_after_evaluation (apply_evaluate c5Llm c5St2))
        (apply_evaluate c5Llm c5St2) = (Stage.synthesize, c5St3) := rfl
    exact he ▸ h
  have hreach : Reach "c" (Stage.synthesize, c5St3) :=
    Relation.ReflTransGen.head h1 (Relation.ReflTransGen.head h2
      (Relation.ReflTransGen.single h3))
  exact ⟨hreach, (c5_synthesize_nonempty "c" (Stage.synthesize, c5St3) hreach).1 rfl⟩
